import Mathlib

/-! Formal model of the react-guide tour component: target resolution,
tooltip placement engine, retry controller, and step-transition logic,
translated from the library source file. Coordinates and scores are
modelled as rationals, which represent the JavaScript number arithmetic
used by the component exactly on all inputs it manipulates. -/

namespace ReactGuide

/-- JavaScript truthiness of an optional string value: an absent value
(`undefined`) and the empty string are falsy, every other string is truthy. -/
def truthy : Option String → Bool
  | none => false
  | some s => !s.isEmpty

/-- Executable maximum on rationals (`Math.max` on two numbers). -/
def qmax (a b : ℚ) : ℚ := if a ≤ b then b else a

/-- Executable minimum on rationals (`Math.min` on two numbers). -/
def qmin (a b : ℚ) : ℚ := if a ≤ b then a else b

/-- The eight named tooltip placements. -/
inductive Placement where
  | top
  | bottom
  | left
  | right
  | topLeft
  | topRight
  | bottomLeft
  | bottomRight
deriving DecidableEq, Repr

/-- The preferred-position argument of `calculatePosition`: either `auto`
(also the behaviour of an absent or unrecognised value) or one of the eight
named placements. -/
inductive Pref where
  | auto
  | side (p : Placement)
deriving DecidableEq, Repr

/-- The fields of a bounding region that `calculatePosition` reads:
viewport-relative top/left of the region and its width/height. -/
structure Rect where
  viewportTop : ℚ
  viewportLeft : ℚ
  width : ℚ
  height : ℚ
deriving DecidableEq, Repr

/-- Margin between the tooltip and the highlight box. -/
def tooltipMargin : ℚ := 20

/-- Fixed tooltip width. -/
def tooltipWidth : ℚ := 320

/-- Fixed tooltip height budget. -/
def tooltipHeight : ℚ := 250

/-- Safety padding kept from the viewport edges. -/
def viewportPadding : ℚ := 20

/-- Padding of the highlight outline around the target. -/
def highlightPadding : ℚ := 10

/-- One entry of the candidate table built by `calculatePosition`: raw
score, fit predicate, and the unclamped tooltip top/left for that side. -/
structure Candidate where
  score : ℚ
  fits : Bool
  top : ℚ
  left : ℚ
deriving DecidableEq, Repr

/-- The candidate table built by `calculatePosition` for a target rectangle
and a viewport, one entry per placement. -/
def positionsOf (r : Rect) (vw vh : ℚ) : Placement → Candidate :=
  let targetTop := r.viewportTop - highlightPadding
  let targetBottom := r.viewportTop + r.height + highlightPadding
  let targetLeft := r.viewportLeft - highlightPadding
  let targetRight := r.viewportLeft + r.width + highlightPadding
  let targetCenterX := r.viewportLeft + r.width / 2
  let targetCenterY := r.viewportTop + r.height / 2
  let spaceTop := targetTop - viewportPadding
  let spaceBottom := vh - targetBottom - viewportPadding
  let spaceLeft := targetLeft - viewportPadding
  let spaceRight := vw - targetRight - viewportPadding
  fun p =>
    match p with
    | .top =>
        { score := spaceTop * (6 / 5)
          fits := decide (tooltipHeight + tooltipMargin ≤ spaceTop)
          top := targetTop - tooltipMargin - tooltipHeight
          left := targetCenterX - tooltipWidth / 2 }
    | .bottom =>
        { score := spaceBottom * (6 / 5)
          fits := decide (tooltipHeight + tooltipMargin ≤ spaceBottom)
          top := targetBottom + tooltipMargin
          left := targetCenterX - tooltipWidth / 2 }
    | .left =>
        { score := spaceLeft
          fits := decide (tooltipWidth + tooltipMargin ≤ spaceLeft)
          top := targetCenterY - tooltipHeight / 2
          left := targetLeft - tooltipMargin - tooltipWidth }
    | .right =>
        { score := spaceRight
          fits := decide (tooltipWidth + tooltipMargin ≤ spaceRight)
          top := targetCenterY - tooltipHeight / 2
          left := targetRight + tooltipMargin }
    | .topLeft =>
        { score := spaceTop * (11 / 10)
          fits := decide (tooltipHeight + tooltipMargin ≤ spaceTop) && decide (0 ≤ spaceLeft)
          top := targetTop - tooltipMargin - tooltipHeight
          left := qmax viewportPadding targetLeft }
    | .topRight =>
        { score := spaceTop * (11 / 10)
          fits := decide (tooltipHeight + tooltipMargin ≤ spaceTop) && decide (0 ≤ spaceRight)
          top := targetTop - tooltipMargin - tooltipHeight
          left := qmin (targetRight - tooltipWidth) (vw - tooltipWidth - viewportPadding) }
    | .bottomLeft =>
        { score := spaceBottom * (11 / 10)
          fits := decide (tooltipHeight + tooltipMargin ≤ spaceBottom) && decide (0 ≤ spaceLeft)
          top := targetBottom + tooltipMargin
          left := qmax viewportPadding targetLeft }
    | .bottomRight =>
        { score := spaceBottom * (11 / 10)
          fits := decide (tooltipHeight + tooltipMargin ≤ spaceBottom) && decide (0 ≤ spaceRight)
          top := targetBottom + tooltipMargin
          left := qmin (targetRight - tooltipWidth) (vw - tooltipWidth - viewportPadding) }

/-- The fixed priority order scanned for the first fitting candidate. -/
def priorityOrder : List Placement :=
  [.top, .bottom, .topLeft, .topRight, .bottomLeft, .bottomRight, .right, .left]

/-- The insertion order of the candidate table: the order in which the
fallback maximum scan iterates over all eight candidates. -/
def insertionOrder : List Placement :=
  [.top, .bottom, .left, .right, .topLeft, .topRight, .bottomLeft, .bottomRight]

/-- Adjusted score used by the fallback scan: raw score plus a 1000 bonus
for a fitting candidate. -/
def adjustedScore (c : Candidate) : ℚ := c.score + (if c.fits then 1000 else 0)

/-- One step of the fallback maximum scan of `findBestPosition`; the
`Option` accumulator component models the `-Infinity` initial best score. -/
def bestStep (tbl : Placement → Candidate) (acc : Placement × Option ℚ) (p : Placement) :
    Placement × Option ℚ :=
  match acc.2 with
  | none => (p, some (adjustedScore (tbl p)))
  | some best =>
      if best < adjustedScore (tbl p) then (p, some (adjustedScore (tbl p))) else acc

/-- `findBestPosition`: the first candidate of the priority order whose fit
predicate holds; otherwise the candidate with maximal adjusted score, the
first such in iteration order winning ties, starting from the default
`top`. -/
def findBestPosition (tbl : Placement → Candidate) : Placement :=
  match priorityOrder.find? (fun p => (tbl p).fits) with
  | some p => p
  | none => (insertionOrder.foldl (bestStep tbl) (Placement.top, none)).1

/-- Arrow anchor point and rotation. -/
structure ArrowInfo where
  x : ℚ
  y : ℚ
  rotation : ℚ
deriving DecidableEq, Repr

/-- `calculateArrowPosition`: arrow anchor point and rotation for a chosen
placement (only the placement and target rectangle are read). -/
def calculateArrowPosition (placement : Placement) (r : Rect) : ArrowInfo :=
  let targetCenterX := r.viewportLeft + r.width / 2
  let targetCenterY := r.viewportTop + r.height / 2
  let targetTopEdge := r.viewportTop - highlightPadding
  let targetBottomEdge := r.viewportTop + r.height + highlightPadding
  let targetLeftEdge := r.viewportLeft - highlightPadding
  let targetRightEdge := r.viewportLeft + r.width + highlightPadding
  let gap : ℚ := 8
  match placement with
  | .top | .topLeft | .topRight => ⟨targetCenterX, targetTopEdge - gap, 180⟩
  | .bottom | .bottomLeft | .bottomRight => ⟨targetCenterX, targetBottomEdge + gap, 0⟩
  | .left => ⟨targetLeftEdge - gap, targetCenterY, -90⟩
  | .right => ⟨targetRightEdge + gap, targetCenterY, 90⟩

/-- Result of `calculatePosition`: chosen placement, clamped tooltip anchor
and width, arrow information, and the target center point. -/
structure PositionResult where
  placement : Placement
  tooltipTop : ℚ
  tooltipLeft : ℚ
  width : ℚ
  arrowStyle : ArrowInfo
  targetCenterX : ℚ
  targetCenterY : ℚ
deriving DecidableEq, Repr

/-- Body of `calculatePosition` for a non-null target rectangle: choose the
placement (preferred side if it fits, otherwise `findBestPosition`), then
clamp the tooltip anchor into the safety-padded viewport. -/
def calcInner (r : Rect) (vw vh : ℚ) (pref : Pref) : PositionResult :=
  let tbl := positionsOf r vw vh
  let placement :=
    match pref with
    | .side p => if (tbl p).fits then p else findBestPosition tbl
    | .auto => findBestPosition tbl
  let tooltipTop :=
    qmax viewportPadding (qmin (tbl placement).top (vh - tooltipHeight - viewportPadding))
  let tooltipLeft :=
    qmax viewportPadding (qmin (tbl placement).left (vw - tooltipWidth - viewportPadding))
  { placement := placement
    tooltipTop := tooltipTop
    tooltipLeft := tooltipLeft
    width := tooltipWidth
    arrowStyle := calculateArrowPosition placement r
    targetCenterX := r.viewportLeft + r.width / 2
    targetCenterY := r.viewportTop + r.height / 2 }

/-- `calculatePosition`: a null target rectangle yields null. -/
def calculatePosition (targetRect : Option Rect) (vw vh : ℚ) (pref : Pref) :
    Option PositionResult :=
  match targetRect with
  | none => none
  | some r => some (calcInner r vw vh pref)

/-- A target descriptor: optional element id and optional class name. -/
structure Target where
  id : Option String := none
  className : Option String := none
deriving DecidableEq, Repr

/-- A resolved live element, identified with its bounding client rectangle
(the only data the component reads from it). -/
structure Elem where
  top : ℚ
  left : ℚ
  right : ℚ
  bottom : ℚ
  width : ℚ
  height : ℚ
deriving DecidableEq, Repr

/-- The read-only document state: id lookup, first-match class lookup, and
the window scroll offsets. -/
structure Dom where
  byId : String → Option Elem
  byClass : String → Option Elem
  scrollX : ℚ
  scrollY : ℚ

/-- `getTargetElement`: a null descriptor resolves to null; a truthy id
field is looked up by id (with no fallback on failure); otherwise a truthy
class name is looked up by first-match class selector. -/
def getTargetElement (dom : Dom) : Option Target → Option Elem
  | none => none
  | some t =>
      if truthy t.id then dom.byId (t.id.getD "")
      else if truthy t.className then dom.byClass (t.className.getD "")
      else none

/-- The combined bounding region computed by `getCombinedRect`. -/
structure BoundingRegion where
  top : ℚ
  left : ℚ
  width : ℚ
  height : ℚ
  viewportTop : ℚ
  viewportLeft : ℚ
  viewportRight : ℚ
  viewportBottom : ℚ
  individualRects : List Elem
deriving DecidableEq, Repr

/-- `getCombinedRect`: resolve every descriptor, silently skipping the ones
that resolve to nothing; return null when none resolve, otherwise the union
bounding box combined with the scroll offsets. -/
def getCombinedRect (dom : Dom) (targets : List (Option Target)) :
    Option BoundingRegion :=
  match targets.filterMap (getTargetElement dom) with
  | [] => none
  | r :: rs =>
      let minLeft := rs.foldl (fun m e => qmin m e.left) r.left
      let minTop := rs.foldl (fun m e => qmin m e.top) r.top
      let maxRight := rs.foldl (fun m e => qmax m e.right) r.right
      let maxBottom := rs.foldl (fun m e => qmax m e.bottom) r.bottom
      some { top := minTop + dom.scrollY
             left := minLeft + dom.scrollX
             width := maxRight - minLeft
             height := maxBottom - minTop
             viewportTop := minTop
             viewportLeft := minLeft
             viewportRight := maxRight
             viewportBottom := maxBottom
             individualRects := r :: rs }

/-- A tour step, restricted to the fields the modelled logic reads.
`hasOnNext` records whether the step carries a custom onNext action. -/
structure Step where
  step : Int
  id : Option String := none
  className : Option String := none
  targets : Option (List (Option Target)) := none
  path : Option String := none
  nextPath : Option String := none
  hasOnNext : Bool := false
deriving DecidableEq, Repr

/-- `getStepTargets`: an explicit target list wins; else a single inline
id/className descriptor when either field is truthy; else no targets. -/
def getStepTargets (s : Step) : List (Option Target) :=
  match s.targets with
  | some ts => ts
  | none =>
      if truthy s.id || truthy s.className then [some ⟨s.id, s.className⟩] else []

/-- Observable callback invocations and state mutations emitted by the
controller, in order. `delay50` marks the 50 ms navigation-settle delay:
everything after it in an action list happens only after that delay. -/
inductive Action where
  | runOnNext
  | complete
  | navigate (path : String)
  | setIndex (i : ℕ)
  | stepChange (stepNumber : Option Int) (path : Option String)
  | delay50
deriving DecidableEq, Repr

/-- The mutable tour state held by the component. -/
structure TourState where
  currentStepIndex : ℕ
  targetRect : Option BoundingRegion
  isVisible : Bool
  retryCount : ℕ
deriving DecidableEq, Repr

/-- Maximum number of retries (3 seconds at 200 ms intervals). -/
def maxRetries : ℕ := 15

/-- `skipToNextValidStep`: completion on the last step; otherwise advance
the index, fire the step-change callback, and fire the navigation callback
iff the next step has a truthy path. Host callbacks are assumed provided. -/
def skipToNextValidStep (steps : List Step) (s : TourState) :
    TourState × List Action :=
  if s.currentStepIndex = steps.length - 1 then
    (s, [.complete])
  else
    let nextIndex := s.currentStepIndex + 1
    let nextStep := steps[nextIndex]?
    ({ s with currentStepIndex := nextIndex },
      [.setIndex nextIndex,
       .stepChange (nextStep.map Step.step) (nextStep.bind Step.path)] ++
        (if truthy (nextStep.bind Step.path) then
          [.navigate ((nextStep.bind Step.path).getD "")]
        else []))

/-- Result of one `updateTargetPosition` call: the new state, whether a
200 ms retry was scheduled, and the emitted actions. -/
structure UpdateResult where
  state : TourState
  scheduledRetry : Bool
  actions : List Action
deriving DecidableEq, Repr

/-- `updateTargetPosition`: no-op without a current step; on successful
resolution cache the region, reset the retry counter to 0 and mark the step
visible; on failure with retry enabled and the counter below the maximum,
increment the counter and schedule a retry; otherwise, if the counter has
reached the maximum, reset it to 0 and skip to the next valid step; else do
nothing. -/
def updateTargetPosition (dom : Dom) (steps : List Step) (withRetry : Bool)
    (s : TourState) : UpdateResult :=
  match steps[s.currentStepIndex]? with
  | none => ⟨s, false, []⟩
  | some cur =>
      match getCombinedRect dom (getStepTargets cur) with
      | some rect =>
          ⟨{ s with targetRect := some rect, retryCount := 0, isVisible := true },
            false, []⟩
      | none =>
          if withRetry ∧ s.retryCount < maxRetries then
            ⟨{ s with retryCount := s.retryCount + 1 }, true, []⟩
          else if maxRetries ≤ s.retryCount then
            let skipped := skipToNextValidStep steps { s with retryCount := 0 }
            ⟨skipped.1, false, skipped.2⟩
          else ⟨s, false, []⟩

/-- `handleNext`: run the step's custom onNext action if present; complete
on the last step; otherwise decide whether navigation is needed (an explicit
`nextPath` on the current step, or a truthy path on the next step differing
from the current step's path) and either navigate first and advance after
the 50 ms settle delay, or advance immediately. Host callbacks are assumed
provided. -/
def handleNext (steps : List Step) (s : TourState) : List Action :=
  let cur := steps[s.currentStepIndex]?
  let onNextActs := if (cur.map Step.hasOnNext).getD false then [Action.runOnNext] else []
  if s.currentStepIndex = steps.length - 1 then
    onNextActs ++ [.complete]
  else
    let nextIndex := s.currentStepIndex + 1
    let nextStep := steps[nextIndex]?
    let needsNavigation :=
      truthy (cur.bind Step.nextPath) ||
        (truthy (nextStep.bind Step.path) &&
          !((nextStep.bind Step.path) == (cur.bind Step.path)))
    let targetPath :=
      if truthy (cur.bind Step.nextPath) then cur.bind Step.nextPath
      else nextStep.bind Step.path
    if needsNavigation && truthy targetPath then
      onNextActs ++ [.navigate (targetPath.getD ""), .delay50, .setIndex nextIndex,
        .stepChange (nextStep.map Step.step) (nextStep.bind Step.path)]
    else
      onNextActs ++ [.setIndex nextIndex,
        .stepChange (nextStep.map Step.step) (nextStep.bind Step.path)]

/-- Trace of repeated retry-enabled update calls that keep failing to
resolve, one document snapshot per call. -/
def failTrace (doms : ℕ → Dom) (steps : List Step) (s0 : TourState) : ℕ → TourState
  | 0 => s0
  | k + 1 => (updateTargetPosition (doms k) steps true (failTrace doms steps s0 k)).state

/-- Controller states reachable from the initial state through update
calls with arbitrary document snapshots and retry flags. -/
inductive Reachable (steps : List Step) : TourState → Prop where
  | init : Reachable steps ⟨0, none, false, 0⟩
  | step (dom : Dom) (w : Bool) {s : TourState} :
      Reachable steps s → Reachable steps (updateTargetPosition dom steps w s).state

/-- A document in which no lookup succeeds. -/
def domFail : Dom := ⟨fun _ => none, fun _ => none, 0, 0⟩

/-- First step of the two-step fixture tour: its target never resolves and
its path equals the second step's path. -/
def stepA : Step := { step := 1, id := some "missing-a", path := some "/p" }

/-- Second step of the two-step fixture tour. -/
def stepB : Step := { step := 2, id := some "missing-b", path := some "/p" }

/-- Two-step fixture tour whose steps share one path. -/
def twoStepTour : List Step := [stepA, stepB]

/-- Fixture state: first step active with the retry budget exhausted. -/
def state15 : TourState := ⟨0, none, false, 15⟩

/-- First component of the fallback maximum scan seeded with a current best
candidate whose adjusted score is the current best score. -/
def runBest (tbl : Placement → Candidate) (p0 : Placement) (l : List Placement) :
    Placement :=
  (l.foldl (bestStep tbl) (p0, some (adjustedScore (tbl p0)))).1

/-- A concrete resolvable element for witnesses. -/
def elemW : Elem := ⟨10, 20, 60, 30, 40, 20⟩

/-- A document with one element with id `present`. -/
def domW : Dom := ⟨fun s => if s = "present" then some elemW else none, fun _ => none, 3, 7⟩

/-- The region computed for `elemW` under `domW` scroll offsets. -/
def regW : BoundingRegion := ⟨17, 23, 40, 20, 10, 20, 60, 30, [elemW]⟩

/-- A document whose class lookup would match `elemW` for class `c`. -/
def domW2 : Dom := ⟨fun _ => none, fun s => if s = "c" then some elemW else none, 0, 0⟩

/-- First step of the cross-page fixture tour. -/
def stepN1 : Step := { step := 1, id := some "n1", path := some "/a" }

/-- Second step of the cross-page fixture tour, with a different path. -/
def stepN2 : Step := { step := 2, id := some "n2", path := some "/b" }

theorem le_qmax_left (a b : ℚ) : a ≤ qmax a b := by
  unfold qmax; split <;> linarith

theorem le_qmax_right (a b : ℚ) : b ≤ qmax a b := by
  unfold qmax; split <;> linarith

theorem qmax_le {a b c : ℚ} (h1 : a ≤ c) (h2 : b ≤ c) : qmax a b ≤ c := by
  unfold qmax; split <;> assumption

theorem qmin_le_left (a b : ℚ) : qmin a b ≤ a := by
  unfold qmin; split <;> linarith

theorem qmin_le_right (a b : ℚ) : qmin a b ≤ b := by
  unfold qmin; split <;> linarith

theorem runBest_nil (tbl : Placement → Candidate) (p0 : Placement) :
    runBest tbl p0 [] = p0 := rfl

theorem runBest_cons (tbl : Placement → Candidate) (p0 q : Placement)
    (l : List Placement) :
    runBest tbl p0 (q :: l) =
      if adjustedScore (tbl p0) < adjustedScore (tbl q) then runBest tbl q l
      else runBest tbl p0 l := by
  by_cases h : adjustedScore (tbl p0) < adjustedScore (tbl q) <;>
    simp [runBest, bestStep, h]

theorem runBest_le (tbl : Placement → Candidate) (l : List Placement) :
    ∀ p0 q, q ∈ p0 :: l →
      adjustedScore (tbl q) ≤ adjustedScore (tbl (runBest tbl p0 l)) := by
  induction l with
  | nil =>
      intro p0 q hq
      rw [List.mem_singleton] at hq
      subst hq
      exact le_rfl
  | cons x rest ih =>
      intro p0 q hq
      rw [runBest_cons]
      by_cases h : adjustedScore (tbl p0) < adjustedScore (tbl x)
      · rw [if_pos h]
        rcases List.mem_cons.mp hq with rfl | hq'
        · exact le_trans (le_of_lt h) (ih x x (List.mem_cons_self _ _))
        · exact ih x q hq'
      · rw [if_neg h]
        push_neg at h
        rcases List.mem_cons.mp hq with rfl | hq'
        · exact ih _ _ (List.mem_cons_self _ _)
        · rcases List.mem_cons.mp hq' with rfl | hq''
          · exact le_trans h (ih p0 p0 (List.mem_cons_self _ _))
          · exact ih p0 q (List.mem_cons_of_mem _ hq'')

theorem runBest_strict_before (tbl : Placement → Candidate) (l : List Placement) :
    ∀ p0 q, q ∈ (p0 :: l).takeWhile (fun y => !(y == runBest tbl p0 l)) →
      adjustedScore (tbl q) < adjustedScore (tbl (runBest tbl p0 l)) := by
  induction l with
  | nil =>
      intro p0 q hq
      rw [runBest_nil] at hq
      rw [List.takeWhile_cons_of_neg (by simp)] at hq
      exact absurd hq (List.not_mem_nil q)
  | cons x rest ih =>
      intro p0 q hq
      rw [runBest_cons] at hq ⊢
      by_cases h : adjustedScore (tbl p0) < adjustedScore (tbl x)
      · rw [if_pos h] at hq ⊢
        by_cases hp : p0 = runBest tbl x rest
        · rw [List.takeWhile_cons_of_neg (by simp [hp])] at hq
          exact absurd hq (List.not_mem_nil q)
        · rw [List.takeWhile_cons_of_pos (by simp [hp])] at hq
          rcases List.mem_cons.mp hq with rfl | hq'
          · exact lt_of_lt_of_le h (runBest_le tbl rest x x (List.mem_cons_self _ _))
          · exact ih x q hq'
      · rw [if_neg h] at hq ⊢
        push_neg at h
        by_cases hp : p0 = runBest tbl p0 rest
        · rw [List.takeWhile_cons_of_neg (by simp [← hp])] at hq
          exact absurd hq (List.not_mem_nil q)
        · have hfirst : adjustedScore (tbl p0) <
              adjustedScore (tbl (runBest tbl p0 rest)) := by
            refine ih p0 p0 ?_
            rw [List.takeWhile_cons_of_pos (by simp [hp])]
            exact List.mem_cons_self _ _
          rw [List.takeWhile_cons_of_pos (by simp [hp])] at hq
          rcases List.mem_cons.mp hq with rfl | hq'
          · exact hfirst
          · by_cases hx : x = runBest tbl p0 rest
            · rw [List.takeWhile_cons_of_neg (by simp [hx])] at hq'
              exact absurd hq' (List.not_mem_nil q)
            · rw [List.takeWhile_cons_of_pos (by simp [hx])] at hq'
              rcases List.mem_cons.mp hq' with rfl | hq''
              · exact lt_of_le_of_lt h hfirst
              · refine ih p0 q ?_
                rw [List.takeWhile_cons_of_pos (by simp [hp])]
                exact List.mem_cons_of_mem _ hq''

theorem every_placement_mem_insertionOrder (q : Placement) : q ∈ insertionOrder := by
  cases q <;> simp [insertionOrder]

/-- When no candidate fits, `findBestPosition` is the seeded maximum scan
over the insertion order. -/
theorem findBestPosition_eq_runBest (tbl : Placement → Candidate)
    (h : ∀ p, (tbl p).fits = false) :
    findBestPosition tbl =
      runBest tbl Placement.top
        [.bottom, .left, .right, .topLeft, .topRight, .bottomLeft, .bottomRight] := by
  have hfind : priorityOrder.find? (fun p => (tbl p).fits) = none := by
    simp [priorityOrder, List.find?, h]
  simp only [findBestPosition, hfind]
  rfl

/-- Extensional first-fit characterisation: a fitting candidate preceded in
the priority order only by non-fitting candidates is the one chosen. -/
theorem find?_eq_of_first {α : Type} [DecidableEq α] (pred : α → Bool) (p : α) :
    ∀ l : List α, p ∈ l → pred p = true →
      (∀ q ∈ l.takeWhile (fun y => !(y == p)), pred q = false) →
      l.find? pred = some p := by
  intro l
  induction l with
  | nil => intro h; exact absurd h (List.not_mem_nil p)
  | cons a l ih =>
      intro hmem hp hbefore
      by_cases ha : a = p
      · subst ha
        simp [List.find?_cons, hp]
      · have hpa : pred a = false := by
          refine hbefore a ?_
          rw [List.takeWhile_cons_of_pos (by simp [ha])]
          exact List.mem_cons_self _ _
        have hstep : (a :: l).find? pred = l.find? pred := by
          simp [List.find?_cons, hpa]
        rw [hstep]
        refine ih ?_ hp ?_
        · rcases List.mem_cons.mp hmem with rfl | hm
          · exact absurd rfl ha
          · exact hm
        · intro q hq
          refine hbefore q ?_
          rw [List.takeWhile_cons_of_pos (by simp [ha])]
          exact List.mem_cons_of_mem _ hq

theorem every_placement_mem_priorityOrder (q : Placement) : q ∈ priorityOrder := by
  cases q <;> simp [priorityOrder]

/-- Extensional first-fit characterisation: a fitting candidate preceded in
the priority order only by non-fitting candidates is the one chosen. -/
theorem findBestPosition_firstFit (tbl : Placement → Candidate) (p : Placement)
    (hp : (tbl p).fits = true)
    (hbefore : ∀ q ∈ priorityOrder.takeWhile (fun y => !(y == p)),
      (tbl q).fits = false) :
    findBestPosition tbl = p := by
  have hfind := find?_eq_of_first (fun q => (tbl q).fits) p priorityOrder
    (every_placement_mem_priorityOrder p) hp hbefore
  simp [findBestPosition, hfind]

/-- C1: for every non-null bounding region and every preferred side among
the 8 named placements (not auto), if that side's fit predicate is true for
the supplied geometry and viewport, then `calculatePosition` returns
exactly that side as the chosen placement. -/
theorem C1_preferredSideUsedWhenFits (r : Rect) (vw vh : ℚ) (p : Placement)
    (hfits : (positionsOf r vw vh p).fits = true) :
    (calculatePosition (some r) vw vh (Pref.side p)).map PositionResult.placement =
      some p := by
  simp [calculatePosition, calcInner, hfits]

/-- Witness for C1 at a concrete geometry where the bottom side fits. -/
theorem C1_witness :
    (positionsOf ⟨100, 100, 100, 40⟩ 1920 1080 Placement.bottom).fits = true ∧
    (calculatePosition (some ⟨100, 100, 100, 40⟩) 1920 1080
        (Pref.side Placement.bottom)).map PositionResult.placement =
      some Placement.bottom :=
  ⟨by with_unfolding_all decide,
   C1_preferredSideUsedWhenFits ⟨100, 100, 100, 40⟩ 1920 1080 Placement.bottom
     (by with_unfolding_all decide)⟩

/-- C2: when no non-auto preferred side applies (auto mode, or the
preferred side does not fit), the selected placement is `findBestPosition`
of the candidate table: the first candidate of the fixed priority order
whose fit predicate is true (any fitting candidate preceded only by
non-fitting ones is selected); and if no candidate fits, the selected
placement maximises the adjusted score `score + (fits ? 1000 : 0)` over all
8 candidates, every candidate strictly earlier in iteration order scoring
strictly less (ties broken by iteration order, starting from the default
`top`). -/
theorem C2_fallbackSelection (r : Rect) (vw vh : ℚ) (pref : Pref)
    (res : PositionResult)
    (hpref : pref = Pref.auto ∨
      ∃ p, pref = Pref.side p ∧ (positionsOf r vw vh p).fits = false)
    (hres : calculatePosition (some r) vw vh pref = some res) :
    res.placement = findBestPosition (positionsOf r vw vh) ∧
    (∀ p, (positionsOf r vw vh p).fits = true →
      (∀ q ∈ priorityOrder.takeWhile (fun y => !(y == p)),
        (positionsOf r vw vh q).fits = false) →
      res.placement = p) ∧
    ((∀ p, (positionsOf r vw vh p).fits = false) →
      (∀ q, adjustedScore (positionsOf r vw vh q) ≤
        adjustedScore (positionsOf r vw vh res.placement)) ∧
      (∀ q ∈ insertionOrder.takeWhile (fun y => !(y == res.placement)),
        adjustedScore (positionsOf r vw vh q) <
          adjustedScore (positionsOf r vw vh res.placement))) := by
  have hres' : res = calcInner r vw vh pref := by
    simpa [calculatePosition] using hres.symm
  subst hres'
  have hpl : (calcInner r vw vh pref).placement =
      findBestPosition (positionsOf r vw vh) := by
    rcases hpref with rfl | ⟨p, rfl, hf⟩
    · rfl
    · simp [calcInner, hf]
  refine ⟨hpl, ?_, ?_⟩
  · intro p hp hbefore
    rw [hpl]
    exact findBestPosition_firstFit _ p hp hbefore
  · intro hnone
    rw [hpl, findBestPosition_eq_runBest _ hnone]
    constructor
    · intro q
      exact runBest_le _ _ Placement.top q (every_placement_mem_insertionOrder q)
    · intro q hq
      exact runBest_strict_before _ _ Placement.top q hq

/-- Witness for C2: in auto mode on the Scenario A geometry, bottom is the
first fitting candidate of the priority order and is selected. -/
theorem C2_witness :
    (calcInner ⟨100, 100, 100, 40⟩ 1920 1080 Pref.auto).placement =
      Placement.bottom :=
  (C2_fallbackSelection ⟨100, 100, 100, 40⟩ 1920 1080 Pref.auto _
      (Or.inl rfl) rfl).2.1 Placement.bottom
    (by with_unfolding_all decide) (by with_unfolding_all decide)

/-- C4: on viewport 1920x1080 with target rect top 100, left 100, width
100, height 40 and preferred side auto, `calculatePosition` chooses
placement bottom with tooltip top 170 and tooltip left clamped to 20. -/
theorem C4_scenarioA :
    (calculatePosition (some ⟨100, 100, 100, 40⟩) 1920 1080 Pref.auto).map
        PositionResult.placement = some Placement.bottom ∧
    (calculatePosition (some ⟨100, 100, 100, 40⟩) 1920 1080 Pref.auto).map
        PositionResult.tooltipTop = some 170 ∧
    (calculatePosition (some ⟨100, 100, 100, 40⟩) 1920 1080 Pref.auto).map
        PositionResult.tooltipLeft = some 20 := by
  refine ⟨?_, ?_, ?_⟩ <;> with_unfolding_all decide

/-- C3 counterexample: on a 100x100 viewport the clamp returns tooltip top
20, which lies outside the claimed interval because its upper end
`viewportHeight - 250 - 20` is below its lower end 20, so the claim fails
for small viewports. -/
theorem C3_counterexample :
    (calculatePosition (some ⟨100, 100, 100, 40⟩) 100 100 Pref.auto).map
        PositionResult.tooltipTop = some 20 ∧
    ¬ ((20 : ℚ) ≤ 100 - tooltipHeight - viewportPadding) := by
  constructor
  · with_unfolding_all decide
  · with_unfolding_all decide

/-- C3 (amended): whenever the viewport is at least as large as the tooltip
footprint plus twice the safety padding in each dimension, the tooltip top
returned by `calculatePosition` lies in
`[viewportPadding, vh - tooltipHeight - viewportPadding]` and the tooltip
left lies in `[viewportPadding, vw - tooltipWidth - viewportPadding]`. -/
theorem C3_clampedWithinViewport (r : Rect) (vw vh : ℚ) (pref : Pref)
    (res : PositionResult)
    (hw : tooltipWidth + 2 * viewportPadding ≤ vw)
    (hh : tooltipHeight + 2 * viewportPadding ≤ vh)
    (hres : calculatePosition (some r) vw vh pref = some res) :
    viewportPadding ≤ res.tooltipTop ∧
    res.tooltipTop ≤ vh - tooltipHeight - viewportPadding ∧
    viewportPadding ≤ res.tooltipLeft ∧
    res.tooltipLeft ≤ vw - tooltipWidth - viewportPadding := by
  have hres' : res = calcInner r vw vh pref := by
    simpa [calculatePosition] using hres.symm
  subst hres'
  have htop : vh - tooltipHeight - viewportPadding ≥ viewportPadding := by linarith
  have hleft : vw - tooltipWidth - viewportPadding ≥ viewportPadding := by linarith
  refine ⟨le_qmax_left _ _, ?_, le_qmax_left _ _, ?_⟩
  · exact qmax_le htop (qmin_le_right _ _)
  · exact qmax_le hleft (qmin_le_right _ _)

/-- Witness for C3 at a concrete large viewport. -/
theorem C3_witness :
    viewportPadding ≤ (calcInner ⟨100, 100, 100, 40⟩ 1920 1080 Pref.auto).tooltipTop ∧
    (calcInner ⟨100, 100, 100, 40⟩ 1920 1080 Pref.auto).tooltipTop ≤
      1080 - tooltipHeight - viewportPadding ∧
    viewportPadding ≤ (calcInner ⟨100, 100, 100, 40⟩ 1920 1080 Pref.auto).tooltipLeft ∧
    (calcInner ⟨100, 100, 100, 40⟩ 1920 1080 Pref.auto).tooltipLeft ≤
      1920 - tooltipWidth - viewportPadding :=
  C3_clampedWithinViewport ⟨100, 100, 100, 40⟩ 1920 1080 Pref.auto _
    (by with_unfolding_all decide) (by with_unfolding_all decide) rfl

theorem foldl_qmin_le_init (f : Elem → ℚ) :
    ∀ (l : List Elem) (a : ℚ), l.foldl (fun m x => qmin m (f x)) a ≤ a := by
  intro l
  induction l with
  | nil => intro a; exact le_rfl
  | cons x xs ih =>
      intro a
      calc xs.foldl (fun m x => qmin m (f x)) (qmin a (f x)) ≤ qmin a (f x) := ih _
        _ ≤ a := qmin_le_left _ _

theorem foldl_qmin_le_mem (f : Elem → ℚ) :
    ∀ (l : List Elem) (a : ℚ) (e : Elem), e ∈ l →
      l.foldl (fun m x => qmin m (f x)) a ≤ f e := by
  intro l
  induction l with
  | nil => intro a e he; exact absurd he (List.not_mem_nil e)
  | cons x xs ih =>
      intro a e he
      rcases List.mem_cons.mp he with rfl | he'
      · calc xs.foldl (fun m x => qmin m (f x)) (qmin a (f e)) ≤ qmin a (f e) :=
            foldl_qmin_le_init f xs _
          _ ≤ f e := qmin_le_right _ _
      · exact ih _ e he'

theorem init_le_foldl_qmax (f : Elem → ℚ) :
    ∀ (l : List Elem) (a : ℚ), a ≤ l.foldl (fun m x => qmax m (f x)) a := by
  intro l
  induction l with
  | nil => intro a; exact le_rfl
  | cons x xs ih =>
      intro a
      calc a ≤ qmax a (f x) := le_qmax_left _ _
        _ ≤ xs.foldl (fun m x => qmax m (f x)) (qmax a (f x)) := ih _

theorem mem_le_foldl_qmax (f : Elem → ℚ) :
    ∀ (l : List Elem) (a : ℚ) (e : Elem), e ∈ l →
      f e ≤ l.foldl (fun m x => qmax m (f x)) a := by
  intro l
  induction l with
  | nil => intro a e he; exact absurd he (List.not_mem_nil e)
  | cons x xs ih =>
      intro a e he
      rcases List.mem_cons.mp he with rfl | he'
      · calc f e ≤ qmax a (f e) := le_qmax_right _ _
          _ ≤ xs.foldl (fun m x => qmax m (f x)) (qmax a (f e)) :=
            init_le_foldl_qmax f xs _
      · exact ih _ e he'

/-- C7: `getCombinedRect` returns null if and only if zero descriptors
resolve to a live element, and the individual rectangles of a non-null
result are exactly those of the resolving descriptors in order, so a
descriptor that resolves to nothing contributes no rectangle. -/
theorem C7_nullIffNoneResolve (dom : Dom) (targets : List (Option Target)) :
    (getCombinedRect dom targets = none ↔
      ∀ t ∈ targets, getTargetElement dom t = none) ∧
    (∀ reg, getCombinedRect dom targets = some reg →
      reg.individualRects = targets.filterMap (getTargetElement dom)) := by
  rcases h : targets.filterMap (getTargetElement dom) with _ | ⟨r, rs⟩
  · have hall := List.filterMap_eq_nil_iff.mp h
    have hnone : getCombinedRect dom targets = none := by
      simp only [getCombinedRect, h]
    refine ⟨⟨fun _ => hall, fun _ => hnone⟩, ?_⟩
    intro reg hreg
    rw [hnone] at hreg
    cases hreg
  · have hne : getCombinedRect dom targets ≠ none := by
      simp only [getCombinedRect, h]
      intro hbad
      cases hbad
    have hnotall : ¬ ∀ t ∈ targets, getTargetElement dom t = none := by
      intro hall
      have hnil := List.filterMap_eq_nil_iff.mpr hall
      rw [h] at hnil
      cases hnil
    refine ⟨⟨fun hh => absurd hh hne, fun hall => absurd hall hnotall⟩, ?_⟩
    intro reg hreg
    simp only [getCombinedRect, h, Option.some.injEq] at hreg
    subst hreg
    rfl

/-- Witness for C7: a single unresolvable descriptor yields null. -/
theorem C7_witness :
    getCombinedRect domFail [some ⟨some "missing-a", none⟩] = none :=
  (C7_nullIffNoneResolve domFail [some ⟨some "missing-a", none⟩]).1.mpr (by decide)

/-- C8: the combined bounding region contains every individual resolved
rectangle, and its document-relative top/left equal the viewport minima
plus the scroll offsets. -/
theorem C8_combinedContainsAll (dom : Dom) (targets : List (Option Target))
    (reg : BoundingRegion) (hreg : getCombinedRect dom targets = some reg) :
    (∀ e ∈ reg.individualRects,
      reg.viewportLeft ≤ e.left ∧ reg.viewportTop ≤ e.top ∧
      e.right ≤ reg.viewportRight ∧ e.bottom ≤ reg.viewportBottom) ∧
    reg.top = reg.viewportTop + dom.scrollY ∧
    reg.left = reg.viewportLeft + dom.scrollX := by
  rcases h : targets.filterMap (getTargetElement dom) with _ | ⟨r, rs⟩
  · simp only [getCombinedRect, h] at hreg
    cases hreg
  · simp only [getCombinedRect, h, Option.some.injEq] at hreg
    subst hreg
    refine ⟨?_, rfl, rfl⟩
    intro e he
    rcases List.mem_cons.mp he with rfl | he'
    · exact ⟨foldl_qmin_le_init _ _ _, foldl_qmin_le_init _ _ _,
        init_le_foldl_qmax _ _ _, init_le_foldl_qmax _ _ _⟩
    · exact ⟨foldl_qmin_le_mem _ _ _ _ he', foldl_qmin_le_mem _ _ _ _ he',
        mem_le_foldl_qmax _ _ _ _ he', mem_le_foldl_qmax _ _ _ _ he'⟩

/-- Witness for C8 at a concrete document. -/
theorem C8_witness :
    regW.top = regW.viewportTop + domW.scrollY ∧
    regW.left = regW.viewportLeft + domW.scrollX :=
  (C8_combinedContainsAll domW [some ⟨some "present", none⟩] regW
    (by with_unfolding_all decide)).2

/-- C10: a descriptor with a truthy id matching no element resolves to null
even when it also carries a class name that would match an element (the
class fallback is attempted only when the id is absent or falsy), and such
a descriptor contributes no rectangle to the combined region. -/
theorem C10_idTakesPrecedence (dom : Dom) (t : Target) (e : Elem)
    (l1 l2 : List (Option Target))
    (hid : truthy t.id = true)
    (hmiss : dom.byId (t.id.getD "") = none)
    (hclass : truthy t.className = true)
    (hmatch : dom.byClass (t.className.getD "") = some e) :
    getTargetElement dom (some t) = none ∧
    getCombinedRect dom (l1 ++ some t :: l2) = getCombinedRect dom (l1 ++ l2) := by
  have h1 : getTargetElement dom (some t) = none := by
    simp [getTargetElement, hid, hmiss]
  refine ⟨h1, ?_⟩
  have h2 : (l1 ++ some t :: l2).filterMap (getTargetElement dom) =
      (l1 ++ l2).filterMap (getTargetElement dom) := by
    rw [List.filterMap_append, List.filterMap_append]
    congr 1
    simp [List.filterMap_cons, h1]
  unfold getCombinedRect
  rw [h2]

/-- Witness for C10: id `ghost` matches nothing, class `c` would match. -/
theorem C10_witness :
    getTargetElement domW2 (some ⟨some "ghost", some "c"⟩) = none :=
  (C10_idTakesPrecedence domW2 ⟨some "ghost", some "c"⟩ elemW [] []
    (by decide) rfl (by decide) (by decide)).1

/-- C9: on a non-last step, Next requires navigation exactly when the
current step declares a truthy `nextPath` or the next step declares a
truthy path different from the current step's path; when navigation is
required the navigation callback fires first and the index advance plus
step-change callback happen only after the 50 ms settle delay, otherwise
they happen immediately. -/
theorem C9_nextNavigationDecision (steps : List Step) (s : TourState)
    (cur next : Step)
    (hcur : steps[s.currentStepIndex]? = some cur)
    (hnext : steps[s.currentStepIndex + 1]? = some next) :
    (truthy cur.nextPath = true ∨ (truthy next.path = true ∧ next.path ≠ cur.path) →
      handleNext steps s =
        (if cur.hasOnNext then [Action.runOnNext] else []) ++
          [Action.navigate
            ((if truthy cur.nextPath then cur.nextPath else next.path).getD ""),
           Action.delay50, Action.setIndex (s.currentStepIndex + 1),
           Action.stepChange (some next.step) next.path]) ∧
    (¬ (truthy cur.nextPath = true ∨ (truthy next.path = true ∧ next.path ≠ cur.path)) →
      handleNext steps s =
        (if cur.hasOnNext then [Action.runOnNext] else []) ++
          [Action.setIndex (s.currentStepIndex + 1),
           Action.stepChange (some next.step) next.path]) := by
  have hlt : s.currentStepIndex + 1 < steps.length := (List.getElem?_eq_some.mp hnext).1
  have hne : s.currentStepIndex ≠ steps.length - 1 := by omega
  constructor
  · intro hP
    by_cases ha : truthy cur.nextPath = true
    · simp [handleNext, hcur, hnext, hne, ha]
    · have ha' : truthy cur.nextPath = false := by simpa using ha
      have hb : truthy next.path = true ∧ next.path ≠ cur.path := hP.resolve_left ha
      have hbeq : (next.path == cur.path) = false := by simp [hb.2]
      simp [handleNext, hcur, hnext, hne, ha', hb.1, hbeq]
  · intro hP
    push_neg at hP
    obtain ⟨ha, hb⟩ := hP
    have ha' : truthy cur.nextPath = false := by simpa using ha
    cases hbv : truthy next.path with
    | false => simp [handleNext, hcur, hnext, hne, ha', hbv]
    | true =>
        have hbeq : (next.path == cur.path) = true := by simp [hb hbv]
        simp [handleNext, hcur, hnext, hne, ha', hbv, hbeq]

/-- Witness for C9: between pages the navigation signal fires first and the
advance is delayed. -/
theorem C9_witness :
    handleNext [stepN1, stepN2] ⟨0, none, false, 0⟩ =
      [Action.navigate "/b", Action.delay50, Action.setIndex 1,
       Action.stepChange (some 2) (some "/b")] := by
  have h := (C9_nextNavigationDecision [stepN1, stepN2] ⟨0, none, false, 0⟩
    stepN1 stepN2 rfl rfl).1 (by decide)
  simpa [stepN1, stepN2, truthy] using h

theorem skip_retryCount (steps : List Step) (s : TourState) :
    (skipToNextValidStep steps s).1.retryCount = s.retryCount := by
  simp only [skipToNextValidStep]
  split <;> rfl

/-- C5 (amended): a step whose targets never resolve is retried exactly 15
times (the counter climbs to 15 and never beyond); the 16th failing
retry-enabled call resets the counter to 0 and forces the skip: on the last
step that emits only the completion signal without advancing, otherwise it
advances the index, fires the step-change callback, and fires the
navigation callback iff the next step has a truthy path — unlike Next it
fires step-change before navigation, applies no 50 ms delay, and navigates
even when the next step's path equals the current one; the custom onNext
action is not invoked. -/
theorem C5_retryExhaustion (doms : ℕ → Dom) (steps : List Step) (s0 : TourState)
    (cur : Step)
    (hcur : steps[s0.currentStepIndex]? = some cur)
    (hfail : ∀ k, getCombinedRect (doms k) (getStepTargets cur) = none)
    (h0 : s0.retryCount = 0) :
    (∀ k, k ≤ maxRetries →
      failTrace doms steps s0 k = { s0 with retryCount := k }) ∧
    (∀ k, k < maxRetries →
      (updateTargetPosition (doms k) steps true
        (failTrace doms steps s0 k)).scheduledRetry = true ∧
      (updateTargetPosition (doms k) steps true
        (failTrace doms steps s0 k)).actions = []) ∧
    (updateTargetPosition (doms maxRetries) steps true
        (failTrace doms steps s0 maxRetries) =
      ⟨(skipToNextValidStep steps { s0 with retryCount := 0 }).1, false,
       (skipToNextValidStep steps { s0 with retryCount := 0 }).2⟩) ∧
    (s0.currentStepIndex = steps.length - 1 →
      skipToNextValidStep steps { s0 with retryCount := 0 } =
        ({ s0 with retryCount := 0 }, [Action.complete])) ∧
    (s0.currentStepIndex ≠ steps.length - 1 →
      skipToNextValidStep steps { s0 with retryCount := 0 } =
        ({ s0 with retryCount := 0, currentStepIndex := s0.currentStepIndex + 1 },
          [Action.setIndex (s0.currentStepIndex + 1),
           Action.stepChange ((steps[s0.currentStepIndex + 1]?).map Step.step)
             ((steps[s0.currentStepIndex + 1]?).bind Step.path)] ++
          (if truthy ((steps[s0.currentStepIndex + 1]?).bind Step.path) then
            [Action.navigate
              (((steps[s0.currentStepIndex + 1]?).bind Step.path).getD "")]
          else []))) ∧
    (∀ (d : Dom) (w : Bool) (s : TourState), s.retryCount ≤ maxRetries →
      (updateTargetPosition d steps w s).state.retryCount ≤ maxRetries) := by
  obtain ⟨i, tr, vis, rc⟩ := s0
  dsimp only at h0 hcur ⊢
  subst h0
  have htrace : ∀ k, k ≤ maxRetries →
      failTrace doms steps ⟨i, tr, vis, 0⟩ k = ⟨i, tr, vis, k⟩ := by
    intro k
    induction k with
    | zero => intro _; rfl
    | succ n ih =>
        intro hn
        have hn' : n < maxRetries := by omega
        rw [failTrace, ih (by omega)]
        simp only [updateTargetPosition, hcur, hfail n]
        rw [if_pos ⟨by trivial, hn'⟩]
  refine ⟨htrace, ?_, ?_, ?_, ?_, ?_⟩
  · intro k hk
    rw [htrace k (le_of_lt hk)]
    simp only [updateTargetPosition, hcur, hfail k]
    rw [if_pos ⟨by trivial, hk⟩]
    exact ⟨rfl, rfl⟩
  · rw [htrace maxRetries le_rfl]
    simp only [updateTargetPosition, hcur, hfail maxRetries]
    rw [if_neg (fun h => absurd h.2 (lt_irrefl _)), if_pos (le_refl maxRetries)]
  · intro hlast
    simp only [skipToNextValidStep]
    rw [if_pos hlast]
  · intro hnotlast
    simp only [skipToNextValidStep]
    rw [if_neg hnotlast]
  · intro d w s hs
    cases hget : steps[s.currentStepIndex]? with
    | none => simpa [updateTargetPosition, hget] using hs
    | some c =>
        cases hres : getCombinedRect d (getStepTargets c) with
        | some rect => simp [updateTargetPosition, hget, hres]
        | none =>
            simp only [updateTargetPosition, hget, hres]
            split
            · next h =>
                have h2 := h.2
                show s.retryCount + 1 ≤ maxRetries
                omega
            · split
              · next h2 =>
                  show (skipToNextValidStep steps { s with retryCount := 0 }).1.retryCount ≤
                    maxRetries
                  rw [skip_retryCount]
                  exact Nat.zero_le _
              · exact hs

/-- Witness for C5: after 15 failing retry-enabled calls on the fixture
tour the counter stands at the maximum. -/
theorem C5_witness :
    failTrace (fun _ => domFail) twoStepTour ⟨0, none, false, 0⟩ maxRetries =
      ⟨0, none, false, maxRetries⟩ :=
  (C5_retryExhaustion (fun _ => domFail) twoStepTour ⟨0, none, false, 0⟩ stepA rfl
    (fun _ => rfl) rfl).1 maxRetries le_rfl

/-- C5 counterexample: at the moment of exhaustion on a two-step tour whose
steps share one path and have no onNext action, the skip emits
`[setIndex, stepChange, navigate]` while Next (which here would not invoke
any onNext action either) emits only `[setIndex, stepChange]` — so the skip
is not `exactly as if Next had fired except for onNext`. -/
theorem C5_counterexample :
    (updateTargetPosition domFail twoStepTour true state15).actions =
      [Action.setIndex 1, Action.stepChange (some 2) (some "/p"),
       Action.navigate "/p"] ∧
    handleNext twoStepTour state15 =
      [Action.setIndex 1, Action.stepChange (some 2) (some "/p")] ∧
    (updateTargetPosition domFail twoStepTour true state15).actions ≠
      handleNext twoStepTour state15 := by
  refine ⟨by decide, by decide, by decide⟩

/-- C6 (amended): a passive (no-retry) pass never schedules a retry and
never increments the retry counter, and when the targets are not found it
is a no-op provided the retry counter is below the maximum; but when the
counter has already reached the maximum, even a passive pass triggers the
exhaustion skip. -/
theorem C6_passiveResolution (dom : Dom) (steps : List Step) (s : TourState) :
    (updateTargetPosition dom steps false s).scheduledRetry = false ∧
    (updateTargetPosition dom steps false s).state.retryCount ≤ s.retryCount ∧
    (∀ cur, steps[s.currentStepIndex]? = some cur →
      getCombinedRect dom (getStepTargets cur) = none →
      s.retryCount < maxRetries →
      updateTargetPosition dom steps false s = ⟨s, false, []⟩) ∧
    (∀ cur, steps[s.currentStepIndex]? = some cur →
      getCombinedRect dom (getStepTargets cur) = none →
      maxRetries ≤ s.retryCount →
      updateTargetPosition dom steps false s =
        ⟨(skipToNextValidStep steps { s with retryCount := 0 }).1, false,
          (skipToNextValidStep steps { s with retryCount := 0 }).2⟩) := by
  have hoff : ∀ (P : Prop), ¬ ((false = true) ∧ P) := fun P h => by cases h.1
  refine ⟨?_, ?_, ?_, ?_⟩
  · cases hget : steps[s.currentStepIndex]? with
    | none => simp [updateTargetPosition, hget]
    | some c =>
        cases hres : getCombinedRect dom (getStepTargets c) with
        | some rect => simp [updateTargetPosition, hget, hres]
        | none =>
            simp only [updateTargetPosition, hget, hres]
            rw [if_neg (hoff _)]
            split <;> rfl
  · cases hget : steps[s.currentStepIndex]? with
    | none => simp [updateTargetPosition, hget]
    | some c =>
        cases hres : getCombinedRect dom (getStepTargets c) with
        | some rect => simp [updateTargetPosition, hget, hres]
        | none =>
            simp only [updateTargetPosition, hget, hres]
            rw [if_neg (hoff _)]
            split
            · next h =>
                show (skipToNextValidStep steps { s with retryCount := 0 }).1.retryCount ≤
                  s.retryCount
                rw [skip_retryCount]
                exact Nat.zero_le _
            · exact le_rfl
  · intro cur hget hres hlt
    simp only [updateTargetPosition, hget, hres]
    rw [if_neg (hoff _), if_neg (by omega)]
  · intro cur hget hres hge
    simp only [updateTargetPosition, hget, hres]
    rw [if_neg (hoff _), if_pos hge]

/-- Witness for C6: a passive pass with the counter below the maximum is a
no-op on unresolvable targets. -/
theorem C6_witness :
    updateTargetPosition domFail twoStepTour false ⟨0, none, false, 3⟩ =
      ⟨⟨0, none, false, 3⟩, false, []⟩ :=
  (C6_passiveResolution domFail twoStepTour ⟨0, none, false, 3⟩).2.2.1 stepA rfl rfl
    (by decide)

theorem reachable_fail_count : ∀ k, k ≤ maxRetries →
    Reachable twoStepTour ⟨0, none, false, k⟩ := by
  intro k
  induction k with
  | zero => intro _; exact Reachable.init
  | succ n ih =>
      intro hn
      have hr := Reachable.step domFail true (ih (by omega))
      have he : (updateTargetPosition domFail twoStepTour true ⟨0, none, false, n⟩).state =
          ⟨0, none, false, n + 1⟩ := by
        have h1 : twoStepTour[(0 : ℕ)]? = some stepA := rfl
        have h2 : getCombinedRect domFail (getStepTargets stepA) = none := rfl
        simp only [updateTargetPosition, h1, h2]
        rw [if_pos ⟨by trivial, by omega⟩]
      rwa [he] at hr

/-- C6 counterexample: a reachable controller state with the retry counter
at the maximum on which a passive (no-retry) pass with unresolved targets
emits the exhaustion-skip actions instead of being a no-op. -/
theorem C6_counterexample :
    Reachable twoStepTour state15 ∧
    (updateTargetPosition domFail twoStepTour false state15).actions =
      [Action.setIndex 1, Action.stepChange (some 2) (some "/p"),
       Action.navigate "/p"] := by
  refine ⟨reachable_fail_count maxRetries le_rfl, by decide⟩

end ReactGuide
